import Mathlib

/-!
# RadiologyAI — verification of the classification / escalation / filesystem core

Shallow embedding of the core logic of the RadiologyAI repository:

* `detect_critical_findings` (src/data_sources/pathway_document_processor.py),
* the escalation-timing UDFs `calculate_escalation_time` / `check_escalation_needed`
  (same file; `app.py` carries byte-for-byte equivalent private copies
  `_calculate_escalation_time` / `_check_escalation_needed`),
* `_calculate_severity_score` (src/intelligence/critical_alert_answerer.py),
* `FilesystemManager.validate_file`, `is_duplicate_file`, `record_processed_file`
  and the collision-safe move loop (src/data_sources/filesystem_manager.py).

Python strings are Lean `String`s, `str.lower` is mapped ASCII lowering,
substring containment (`in`) is an explicit infix scan.  `datetime` values are
integers (seconds); `datetime.fromisoformat` and `datetime.isoformat` are opaque
parameters `parse : String → Option Int` / `fmt : Int → String`, with `parse`
returning `none` exactly when Python would raise.  Python dicts keyed by strings
are association lists with insertion-order update semantics.  Float weights in
the severity table are exact decimals, represented in `ℚ` (all arithmetic the
code performs on them — `max`, `min`, `+` on sums below 100 — is exact in IEEE
double, so `ℚ` is a faithful model).
-/

/-- ASCII lowering of one character, the effect of Python `str.lower` on the
ASCII strings this code base matches against. -/
def asciiLower (c : Char) : Char := c.toLower

/-- `s.lower()` for the ASCII strings used by the repository. -/
def strToLower (s : String) : String := String.mk (s.data.map asciiLower)

/-- `needle.isPrefixOf hay` (Python slice equality / `bytes.startswith`). -/
def prefixAt {α : Type} [DecidableEq α] : List α → List α → Bool
  | [], _ => true
  | _ :: _, [] => false
  | c :: cs, d :: ds => c = d && prefixAt cs ds

/-- Python's `needle in hay` substring containment on character lists. -/
def containsSub (hay needle : List Char) : Bool :=
  match hay with
  | [] => needle.isEmpty
  | _ :: t => prefixAt needle (hay) || containsSub t needle

/-- Python `needle in hay` for strings. -/
def strContains (hay needle : String) : Bool := containsSub hay.data needle.data

/-! ## Condition dictionary

`PathwayDocumentProcessor._load_critical_conditions`
(src/data_sources/pathway_document_processor.py, lines 55-72). -/

def red_alert_conditions : List String :=
  ["pulmonary embolism", "aortic dissection", "hemorrhage", "intracranial bleed",
   "tension pneumothorax", "bowel obstruction", "aortic aneurysm rupture",
   "acute stroke", "myocardial infarction", "cardiac tamponade",
   "subdural hematoma", "epidural hematoma", "pneumoperitoneum"]

def orange_alert_conditions : List String :=
  ["pneumonia", "fracture", "mass", "pneumothorax", "appendicitis",
   "kidney stones", "gallbladder inflammation", "abscess", "blood clot",
   "pleural effusion", "consolidation", "nodule"]

def yellow_alert_conditions : List String :=
  ["cyst", "inflammation", "chronic changes", "arthritis",
   "minor fracture", "sinus infection", "muscle strain", "edema"]

/-! ## `detect_critical_findings`

UDF at src/data_sources/pathway_document_processor.py lines 292-343.  The
three `for` loops append, in dictionary order, every condition of the tier
whose substring occurs in the lowered combined text; the result of each loop
is therefore the `filter` of its condition list.  A lower tier is scanned only
when every higher tier matched nothing. -/

/-- The lowered `f"{findings} {impression}"` the function scans. -/
def combinedText (findings impression : String) : String :=
  strToLower (findings ++ " " ++ impression)

/-- Conditions of one tier whose (lowered) text occurs in the combined text:
the contents appended by one `for` loop of `detect_critical_findings`. -/
def tierMatches (conditions : List String) (findings impression : String) :
    List String :=
  conditions.filter fun c => strContains (combinedText findings impression) (strToLower c)

def redMatches (findings impression : String) : List String :=
  tierMatches red_alert_conditions findings impression

def orangeMatches (findings impression : String) : List String :=
  tierMatches orange_alert_conditions findings impression

def yellowMatches (findings impression : String) : List String :=
  tierMatches yellow_alert_conditions findings impression

/-- Result dict of `detect_critical_findings`. -/
structure CriticalFindingsResult where
  alert_level : String
  critical_conditions : List String
  severity_score : Nat
  confidence : ℚ
deriving Repr, DecidableEq

/-- Final confidence: `min(len(critical_conditions) * 0.3, 1.0)` when some
condition matched, else the initial `0.0`. -/
def confidenceOf (conds : List String) : ℚ :=
  if conds.isEmpty then 0 else min ((conds.length : ℚ) * (3/10)) 1

/-- `detect_critical_findings(findings, impression, conditions_json)` with the
conditions database produced by `_load_critical_conditions`. -/
def detect_critical_findings (findings impression : String) :
    CriticalFindingsResult :=
  let red := redMatches findings impression
  let orange := orangeMatches findings impression
  let yellow := yellowMatches findings impression
  if red.isEmpty then
    if orange.isEmpty then
      if yellow.isEmpty then ⟨"GREEN", [], 0, 0⟩
      else ⟨"YELLOW", yellow, 3, confidenceOf yellow⟩
    else ⟨"ORANGE", orange, 6, confidenceOf orange⟩
  else ⟨"RED", red, 10, confidenceOf red⟩

/-! ## Escalation timing

UDFs `calculate_escalation_time` / `check_escalation_needed`
(src/data_sources/pathway_document_processor.py, lines 496-547); `app.py`
lines 396-418 and 433-455 carry behaviourally identical private copies.
`datetime` values are integers (seconds); `datetime.fromisoformat` is an
opaque `parse` returning `none` exactly when Python raises `ValueError`, and
`isoformat` an opaque rendering `fmt`.  `timedelta(minutes=m)` adds `60*m`
seconds; `.total_seconds()/60` is exact rational division. -/

/-- Python dict lookup on an insertion-ordered association list. -/
def lookupKey {α : Type} (m : List (String × α)) (k : String) : Option α :=
  match m with
  | [] => none
  | (k', v) :: t => if k' = k then some v else lookupKey t k

/-- Python `dict.get(k, default)`. -/
def dictGetD {α : Type} (m : List (String × α)) (k : String) (d : α) : α :=
  (lookupKey m k).getD d

/-- The `escalation_minutes` table of `calculate_escalation_time`. -/
def escalation_minutes : List (String × Int) :=
  [("RED", 5), ("ORANGE", 15), ("YELLOW", 60)]

/-- `calculate_escalation_time(alert_level, timestamp)`: parse the timestamp,
add `escalation_minutes.get(alert_level, 60)` minutes and render; on a parse
error the `except` branch returns the input timestamp unchanged. -/
def calculate_escalation_time (parse : String → Option Int) (fmt : Int → String)
    (alert_level timestamp : String) : String :=
  match parse timestamp with
  | none => timestamp
  | some t => fmt (t + 60 * dictGetD escalation_minutes alert_level 60)

/-- The `escalation_thresholds` table of `check_escalation_needed`. -/
def escalation_thresholds : List (String × ℚ) :=
  [("RED", 5), ("ORANGE", 15)]

/-- `check_escalation_needed(alert_level, timestamp)`: `False` for any level
other than RED/ORANGE, `False` when the timestamp does not parse (the
`except` branch), else compare elapsed minutes against the tier threshold. -/
def check_escalation_needed (parse : String → Option Int) (now : Int)
    (alert_level timestamp : String) : Bool :=
  if alert_level ∉ ["RED", "ORANGE"] then false
  else
    match parse timestamp with
    | none => false
    | some t =>
        decide (((now - t : Int) : ℚ) / 60 ≥
          dictGetD escalation_thresholds alert_level 60)

/-- The spec's Alert record (§3), restricted to the fields escalation is about.
The pipeline's own `CriticalAlertSchema` has **no** `acknowledged` column. -/
structure Alert where
  alert_level : String
  timestamp : String
  acknowledged : Bool
deriving Repr, DecidableEq

/-- The `needs_escalation` column the pipelines attach to an alert row: both
`app.py` and `pathway_document_processor.py` wire it to
`check_escalation_needed(alert_level, timestamp)` — no other field of the
alert enters the computation. -/
def needs_escalation (parse : String → Option Int) (now : Int) (a : Alert) :
    Bool :=
  check_escalation_needed parse now a.alert_level a.timestamp

/-- Concrete stand-in for `datetime.fromisoformat`: recognises the single
timestamp literal "T0" as epoch second 0. -/
def parseT0 : String → Option Int := fun s => if s = "T0" then some 0 else none

/-- Concrete stand-in for `datetime.isoformat` on the instants used in
witnesses. -/
def fmtT0 : Int → String :=
  fun t =>
    if t = 300 then "T0+300s"
    else if t = 900 then "T0+900s"
    else if t = 3600 then "T0+3600s"
    else "T0+other"

/-! ## Filesystem manager: validation, duplicate registry
(src/data_sources/filesystem_manager.py)

A file on disk is abstracted to the observations `validate_file` makes of it:
existence, byte size, `Path.suffix`, the first (up to) 8 bytes (`none` when the
`open`/`read` raises), and its content hash (`calculate_file_hash` returns the
MD5 hex digest, or `""` on a read error; the digest function itself is opaque,
the model carries its output).  The persisted `processed_hashes.json` registry
is an insertion-ordered hash → filename association list, as a JSON-loaded
Python dict is.  The `file_info` metadata dict of the validation result is
bookkeeping no claim touches and is not modelled. -/

structure FileState where
  present : Bool
  size : Nat
  suffix : String
  header : Option (List Nat)
  file_hash : String
deriving Repr, DecidableEq

structure ValidationResult where
  valid : Bool
  errors : List String
  warnings : List String
deriving Repr, DecidableEq

/-- `b'%PDF'`. -/
def pdfMagic : List Nat := [0x25, 0x50, 0x44, 0x46]

/-- `is_duplicate_file`: false on an empty (failed) hash, else a lookup in the
persisted registry (a missing registry file is the empty registry). -/
def is_duplicate_file (registry : List (String × String)) (f : FileState) :
    Bool :=
  if f.file_hash = "" then false
  else (lookupKey registry f.file_hash).isSome

/-- The size check of `validate_file`: `<1KB` error, else `>50MB` error. -/
def sizeErrors (size : Nat) : List String :=
  if size < 1024 then ["File too small (less than 1KB)"]
  else if size > 50 * 1024 * 1024 then ["File too large (more than 50MB)"]
  else []

/-- The extension check: lowered `Path.suffix` must be `.pdf`. -/
def extensionErrors (suffix : String) : List String :=
  if strToLower suffix ≠ ".pdf" then ["File must be PDF format"] else []

/-- The readability/magic-byte check on the first 8 bytes (the source message
carries the exception text after "Cannot read file", irrelevant here). -/
def headerErrors : Option (List Nat) → List String
  | none => ["Cannot read file"]
  | some h => if !(prefixAt pdfMagic h) then
      ["File does not appear to be a valid PDF"] else []

/-- `validate_file`: existence short-circuits; the remaining checks accumulate
errors in source order; the duplicate check only appends a warning; `valid` is
`errors == []`. -/
def validate_file (registry : List (String × String)) (f : FileState) :
    ValidationResult :=
  if !f.present then ⟨false, ["File does not exist"], []⟩
  else
    let errors := sizeErrors f.size ++ extensionErrors f.suffix ++
      headerErrors f.header
    { valid := errors.isEmpty
      errors := errors
      warnings := if is_duplicate_file registry f then
        ["File appears to be a duplicate"] else [] }

/-- Python dict update `m[k] = v`: replace in place, else append. -/
def setKey (m : List (String × String)) (k v : String) :
    List (String × String) :=
  match m with
  | [] => [(k, v)]
  | (k', v') :: t => if k' = k then (k, v) :: t else (k', v') :: setKey t k v

/-- The hash-registry effect of `record_processed_file`: an empty (failed)
hash returns without writing; otherwise `processed_hashes[file_hash] =
file_path.name` on the loaded registry.  (The per-file metadata record the
function also writes is independent bookkeeping, not modelled.) -/
def record_processed_file (registry : List (String × String))
    (file_hash filename : String) : List (String × String) :=
  if file_hash = "" then registry else setKey registry file_hash filename

/-- Number of entries of the registry carrying a given key. -/
def countKey (m : List (String × String)) (k : String) : Nat :=
  (m.filter fun p => p.1 = k).length

/-! ## Severity score
(`CriticalAlertAnswerer._calculate_severity_score`,
src/intelligence/critical_alert_answerer.py lines 615-647)

The weight table's float literals are exact in IEEE double and only entered
into `max`, `min` and a discarded running sum, all exact, so `ℚ` carries them
faithfully. -/

/-- The `severity_weights` dict. -/
def severity_weights : List (String × ℚ) :=
  [("pulmonary embolism", 9), ("aortic dissection", 10), ("hemorrhage", 8),
   ("intracranial bleed", 9.5), ("tension pneumothorax", 9),
   ("cardiac tamponade", 10), ("pneumonia", 4), ("fracture", 3), ("mass", 5)]

/-- One iteration of the inner loop: on a substring match accumulate the
(total, max) pair, else leave it. -/
def severityStep (finding : String) (tm : ℚ × ℚ) (cw : String × ℚ) : ℚ × ℚ :=
  if strContains (strToLower finding) cw.1 then (tm.1 + cw.2, max tm.2 cw.2)
  else tm

/-- `_calculate_severity_score(critical_findings)`: early `0.0` on an empty
list, else both loops over findings × weight table, returning
`min(max_severity, 10.0)` (the computed total is discarded). -/
def _calculate_severity_score (critical_findings : List String) : ℚ :=
  if critical_findings.isEmpty then 0
  else
    let tm := critical_findings.foldl
      (fun acc finding => severity_weights.foldl (severityStep finding) acc)
      (0, 0)
    min tm.2 10

/-- The weights of the table entries matched by some finding, in scan order. -/
def matchedWeights (critical_findings : List String) : List ℚ :=
  (critical_findings.map fun finding =>
    (severity_weights.filter fun cw =>
      strContains (strToLower finding) cw.1).map Prod.snd).flatten

/-- The spec's severity score (§4.3): the maximum matched weight, `0` when
nothing matched. -/
def spec_severity_score (critical_findings : List String) : ℚ :=
  (matchedWeights critical_findings).foldl max 0

/-! ## Collision-safe moves

`move_to_processing` / `move_to_processed` / `move_to_failed`
(src/data_sources/filesystem_manager.py lines 52-135) share one collision
loop: starting from `dir / name`, while the candidate path exists, try
`f"{stem}_{counter}{suffix}"` with `counter` incremented from 1.  A target
directory is the list of its (filename, content) entries in arrival order;
`shutil.move` appends the entry under the resolved name.  The unbounded
`while` is given fuel `|used| + 1`, which the pigeonhole argument below shows
is never exhausted, so the fueled function equals the loop. -/

/-- Numeric value of a decimal digit character. -/
def charVal (c : Char) : Nat := c.toNat - 48

/-- Python `str(n)` for a natural number: decimal digits, most significant
first. -/
def natRepr (n : Nat) : String :=
  if n = 0 then "0"
  else String.mk ((Nat.digits 10 n).reverse.map fun d => Char.ofNat (48 + d))

/-- The candidate name `f"{stem}_{counter}{suffix}"`. -/
def candName (stem sfx : String) (k : Nat) : String :=
  stem ++ "_" ++ natRepr k ++ sfx

/-- The `while processing_path.exists()` loop, with explicit fuel. -/
def resolveLoop (used : List String) (stem sfx : String) :
    Nat → Nat → String
  | counter, 0 => candName stem sfx counter
  | counter, fuel + 1 =>
    if candName stem sfx counter ∈ used then
      resolveLoop used stem sfx (counter + 1) fuel
    else candName stem sfx counter

/-- The full collision handling of one move: the plain name if free, else the
first free suffixed candidate from `counter = 1`. -/
def resolve_collision (used : List String) (stem sfx : String) : String :=
  if stem ++ sfx ∈ used then resolveLoop used stem sfx 1 (used.length + 1)
  else stem ++ sfx

/-- Move a file named `stem ++ sfx` with the given content into a directory:
resolve the name against the names already present, then create the entry. -/
def move_file (dir : List (String × String)) (stem sfx content : String) :
    List (String × String) × String :=
  let n := resolve_collision (dir.map Prod.fst) stem sfx
  (dir ++ [(n, content)], n)

/-! ## Theorems -/

/-- No RED-tier condition string is also an ORANGE- or YELLOW-tier condition
string: the three lists of the static dictionary are pairwise disjoint at the
RED tier. -/
theorem red_tier_disjoint :
    ∀ c ∈ red_alert_conditions,
      c ∉ orange_alert_conditions ∧ c ∉ yellow_alert_conditions := by decide

/-- C1: whenever some RED-tier condition occurs in the combined text, the
classifier returns tier RED, its matched-condition list is exactly the list of
RED-tier matches, no ORANGE- or YELLOW-tier condition string appears in it; and
on text containing both "pneumonia" and "pulmonary embolism" (and no other
condition) the result is RED with matched conditions `["pulmonary embolism"]`
only. -/
theorem C1_red_short_circuit :
    (∀ f i, redMatches f i ≠ [] →
      (detect_critical_findings f i).alert_level = "RED" ∧
      (detect_critical_findings f i).critical_conditions = redMatches f i ∧
      ∀ c ∈ (detect_critical_findings f i).critical_conditions,
        c ∈ red_alert_conditions ∧ c ∉ orange_alert_conditions ∧
          c ∉ yellow_alert_conditions) ∧
    (detect_critical_findings "pneumonia and pulmonary embolism" "").alert_level
        = "RED" ∧
    (detect_critical_findings "pneumonia and pulmonary embolism" "").critical_conditions
        = ["pulmonary embolism"] := by
  refine ⟨?_, by decide, by decide⟩
  intro f i h
  have hre : (redMatches f i).isEmpty = false := by
    cases hr : redMatches f i with
    | nil => exact absurd hr h
    | cons a t => rfl
  refine ⟨by simp [detect_critical_findings, hre], by simp [detect_critical_findings, hre], ?_⟩
  intro c hc
  simp only [detect_critical_findings, hre] at hc
  have hmem : c ∈ red_alert_conditions := by
    have hc' : c ∈ red_alert_conditions ∧
        strContains (combinedText f i) (strToLower c) = true := by
      simpa [redMatches, tierMatches] using hc
    exact hc'.1
  exact ⟨hmem, (red_tier_disjoint c hmem).1, (red_tier_disjoint c hmem).2⟩

/-- Witness for C1 at concrete text. -/
theorem C1_red_short_circuit_witness :
    (detect_critical_findings "known pulmonary embolism" "").alert_level = "RED" :=
  (C1_red_short_circuit.1 "known pulmonary embolism" "" (by decide)).1

/-- C4: when no condition of any tier occurs in the combined text the
classifier returns the GREEN result with an empty matched-condition list (and
zero severity and confidence). -/
theorem C4_green_when_no_match :
    ∀ f i, redMatches f i = [] → orangeMatches f i = [] → yellowMatches f i = [] →
      detect_critical_findings f i = ⟨"GREEN", [], 0, 0⟩ := by
  intro f i h1 h2 h3
  simp [detect_critical_findings, h1, h2, h3]

/-- Witness for C4 at concrete benign text. -/
theorem C4_green_when_no_match_witness :
    detect_critical_findings "clear lungs" "normal study" = ⟨"GREEN", [], 0, 0⟩ :=
  C4_green_when_no_match "clear lungs" "normal study" (by decide) (by decide) (by decide)

/-- C2 (amended): the escalation check attached to an alert row depends only
on `alert_level` and `timestamp` — it is true exactly when the level is RED
with at least 5 elapsed minutes or ORANGE with at least 15, whatever the
`acknowledged` field holds; any other level never escalates, however much
time has elapsed. -/
theorem C2_escalation_ignores_acknowledgement :
    (∀ parse now (a : Alert) t, parse a.timestamp = some t →
      (needs_escalation parse now a = true ↔
        (a.alert_level = "RED" ∧ ((now - t : Int) : ℚ) / 60 ≥ 5) ∨
        (a.alert_level = "ORANGE" ∧ ((now - t : Int) : ℚ) / 60 ≥ 15))) ∧
    (∀ parse now (a : Alert), a.alert_level ≠ "RED" → a.alert_level ≠ "ORANGE" →
      needs_escalation parse now a = false) := by
  constructor
  · intro parse now a t hp
    by_cases hR : a.alert_level = "RED"
    · simp [needs_escalation, check_escalation_needed, hp, hR, dictGetD, lookupKey]
    · by_cases hO : a.alert_level = "ORANGE"
      · simp [needs_escalation, check_escalation_needed, hp, hR, hO, dictGetD, lookupKey]
      · simp [needs_escalation, check_escalation_needed, hp, hR, hO]
  · intro parse now a hR hO
    simp [needs_escalation, check_escalation_needed, hR, hO]

/-- Witness for C2 (amended): a YELLOW alert, however old, never needs
escalation. -/
theorem C2_escalation_ignores_acknowledgement_witness :
    needs_escalation parseT0 999999 (Alert.mk "YELLOW" "T0" false) = false :=
  C2_escalation_ignores_acknowledgement.2 parseT0 999999 (Alert.mk "YELLOW" "T0" false)
    (by decide) (by decide)

/-- Counterexample to C2 as stated: a RED alert that *is* acknowledged and is
10 minutes past creation is still reported as needing escalation — the code
has no access to the `acknowledged` flag, so acknowledgement does not make
`needs_escalation` false. -/
theorem C2_acknowledged_alert_still_flagged :
    (Alert.mk "RED" "T0" true).acknowledged = true ∧
    needs_escalation parseT0 600 (Alert.mk "RED" "T0" true) = true := by
  refine ⟨rfl, ?_⟩
  simp [needs_escalation, check_escalation_needed, parseT0, dictGetD, lookupKey]
  norm_num

/-- C3 (amended): the escalation deadline is `created_at` plus the tier
window — 5 min for RED, 15 for ORANGE, 60 for YELLOW — and GREEN, *not*
having "no deadline", falls into the `.get(level, 60)` default and receives
`created_at + 60` minutes as well; GREEN still never escalates in the
escalation check. -/
theorem C3_deadline_per_tier :
    ∀ parse fmt ts t (now : Int), parse ts = some t →
      calculate_escalation_time parse fmt "RED" ts = fmt (t + 300) ∧
      calculate_escalation_time parse fmt "ORANGE" ts = fmt (t + 900) ∧
      calculate_escalation_time parse fmt "YELLOW" ts = fmt (t + 3600) ∧
      calculate_escalation_time parse fmt "GREEN" ts = fmt (t + 3600) ∧
      check_escalation_needed parse now "GREEN" ts = false := by
  intro parse fmt ts t now hp
  refine ⟨?_, ?_, ?_, ?_, ?_⟩ <;>
    simp [calculate_escalation_time, check_escalation_needed, hp, dictGetD, lookupKey]

/-- Witness for C3 (amended): a RED alert created at epoch 0 gets deadline
epoch 300 s. -/
theorem C3_deadline_per_tier_witness :
    calculate_escalation_time parseT0 fmtT0 "RED" "T0" = "T0+300s" :=
  ((C3_deadline_per_tier parseT0 fmtT0 "T0" 0 0 (by decide)).1).trans (by decide)

/-- Counterexample to C3 as stated: a GREEN alert does get a computed
escalation deadline — creation time plus 60 minutes — rather than none. -/
theorem C3_green_gets_deadline :
    calculate_escalation_time parseT0 fmtT0 "GREEN" "T0" = "T0+3600s" ∧
    "T0+3600s" ≠ "T0" := by
  exact ⟨by decide, by decide⟩

/-- C10: on an unparsable timestamp the escalation check returns false — the
exception is swallowed — and the deadline computation returns the input
timestamp unchanged, for every alert level. -/
theorem C10_fail_closed :
    ∀ parse fmt level ts (now : Int), parse ts = none →
      check_escalation_needed parse now level ts = false ∧
      calculate_escalation_time parse fmt level ts = ts := by
  intro parse fmt level ts now hp
  constructor
  · by_cases h : level ∈ ["RED", "ORANGE"] <;>
      simp [check_escalation_needed, hp, h]
  · simp [calculate_escalation_time, hp]

/-- Witness for C10 on a timestamp no parser accepts. -/
theorem C10_fail_closed_witness :
    check_escalation_needed (fun _ => none) 999999 "RED" "not-a-timestamp" = false ∧
    calculate_escalation_time (fun _ => none) fmtT0 "RED" "not-a-timestamp"
      = "not-a-timestamp" :=
  C10_fail_closed (fun _ => none) fmtT0 "RED" "not-a-timestamp" 999999 rfl

/-- A list with a member is not empty. -/
theorem isEmpty_false_of_mem {α : Type} {a : α} {l : List α} (h : a ∈ l) :
    l.isEmpty = false := by
  cases l with
  | nil => cases h
  | cons x t => rfl

/-- The "too small" error is reported exactly below 1 KB. -/
theorem mem_sizeErrors_small {n : Nat} :
    "File too small (less than 1KB)" ∈ sizeErrors n ↔ n < 1024 := by
  unfold sizeErrors
  split_ifs with h1 h2 <;> simp_all

/-- The "too large" error is reported exactly above 50 MB. -/
theorem mem_sizeErrors_large {n : Nat} :
    "File too large (more than 50MB)" ∈ sizeErrors n ↔ n > 52428800 := by
  unfold sizeErrors
  split_ifs with h1 h2 <;> simp_all
  omega

/-- The extension check never emits a size error string. -/
theorem small_not_mem_extension (s : String) :
    "File too small (less than 1KB)" ∉ extensionErrors s := by
  unfold extensionErrors; split_ifs <;> simp

theorem large_not_mem_extension (s : String) :
    "File too large (more than 50MB)" ∉ extensionErrors s := by
  unfold extensionErrors; split_ifs <;> simp

/-- The header check never emits a size error string. -/
theorem small_not_mem_header (o : Option (List Nat)) :
    "File too small (less than 1KB)" ∉ headerErrors o := by
  cases o
  · simp [headerErrors]
  · simp only [headerErrors]
    split_ifs <;> simp

theorem large_not_mem_header (o : Option (List Nat)) :
    "File too large (more than 50MB)" ∉ headerErrors o := by
  cases o
  · simp [headerErrors]
  · simp only [headerErrors]
    split_ifs <;> simp

/-- An empty extension-error list certifies the `.pdf` extension. -/
theorem extension_ok_of_nil {s : String} (h : extensionErrors s = []) :
    strToLower s = ".pdf" := by
  by_cases hs : strToLower s = ".pdf"
  · exact hs
  · exfalso; simp [extensionErrors, hs] at h

/-- An empty header-error list certifies a readable `%PDF` header. -/
theorem header_ok_of_nil {o : Option (List Nat)} (h : headerErrors o = []) :
    ∃ hd, o = some hd ∧ prefixAt pdfMagic hd = true := by
  cases o with
  | none => simp [headerErrors] at h
  | some hd =>
    refine ⟨hd, rfl, ?_⟩
    by_cases hm : prefixAt pdfMagic hd = true
    · exact hm
    · have hf : prefixAt pdfMagic hd = false := by
        cases hpm : prefixAt pdfMagic hd
        · rfl
        · exact absurd hpm hm
      simp [headerErrors, hf] at h

/-- C5 (amended): for an existing file, a size error is reported exactly when
the size lies outside the **inclusive** interval `[1024, 52428800]`; a
500-byte file fails with the "too small" error; and a valid verdict certifies
the `.pdf` extension and a readable `%PDF` header. -/
theorem C5_validation_size_bounds :
    ∀ reg (f : FileState), f.present = true →
      ((("File too small (less than 1KB)" ∈ (validate_file reg f).errors ∨
          "File too large (more than 50MB)" ∈ (validate_file reg f).errors) ↔
        (f.size < 1024 ∨ f.size > 52428800)) ∧
      (f.size = 500 →
        "File too small (less than 1KB)" ∈ (validate_file reg f).errors ∧
        (validate_file reg f).valid = false) ∧
      ((validate_file reg f).valid = true →
        strToLower f.suffix = ".pdf" ∧
        ∃ hd, f.header = some hd ∧ prefixAt pdfMagic hd = true)) := by
  intro reg f hp
  have hE : (validate_file reg f).errors =
      sizeErrors f.size ++ extensionErrors f.suffix ++ headerErrors f.header := by
    simp [validate_file, hp]
  have hval : (validate_file reg f).valid =
      (sizeErrors f.size ++ extensionErrors f.suffix ++
        headerErrors f.header).isEmpty := by
    simp [validate_file, hp]
  refine ⟨?_, ?_, ?_⟩
  · rw [hE]
    simp only [List.mem_append, mem_sizeErrors_small, mem_sizeErrors_large,
      small_not_mem_extension, small_not_mem_header, large_not_mem_extension,
      large_not_mem_header, or_false]
  · intro h500
    have hmem : "File too small (less than 1KB)" ∈
        sizeErrors f.size ++ extensionErrors f.suffix ++ headerErrors f.header :=
      List.mem_append.mpr (Or.inl (List.mem_append.mpr
        (Or.inl (mem_sizeErrors_small.mpr (by omega)))))
    exact ⟨hE ▸ hmem, by rw [hval]; exact isEmpty_false_of_mem hmem⟩
  · intro hvalid
    rw [hval] at hvalid
    have hnil : sizeErrors f.size ++ extensionErrors f.suffix ++
        headerErrors f.header = [] := by
      cases hz : sizeErrors f.size ++ extensionErrors f.suffix ++
          headerErrors f.header with
      | nil => rfl
      | cons x t => rw [hz] at hvalid; cases hvalid
    rcases List.append_eq_nil.mp hnil with ⟨h12, h3⟩
    rcases List.append_eq_nil.mp h12 with ⟨h1, h2⟩
    exact ⟨extension_ok_of_nil h2, header_ok_of_nil h3⟩

/-- Witness for C5: a 500-byte PDF fails validation with the "too small"
error. -/
theorem C5_validation_size_bounds_witness :
    "File too small (less than 1KB)" ∈
      (validate_file [] ⟨true, 500, ".pdf", some [0x25, 0x50, 0x44, 0x46],
        "h1"⟩).errors ∧
    (validate_file [] ⟨true, 500, ".pdf", some [0x25, 0x50, 0x44, 0x46],
      "h1"⟩).valid = false :=
  (C5_validation_size_bounds []
    ⟨true, 500, ".pdf", some [0x25, 0x50, 0x44, 0x46], "h1"⟩ rfl).2.1 rfl

/-- Counterexample to C5 as stated: the upper bound is inclusive, not
exclusive — a file of exactly 52428800 bytes (outside the claimed half-open
interval `[1024, 52428800)`) produces **no** error and validates. -/
theorem C5_exact_50MB_is_valid :
    (52428800 : Nat) ≥ 52428800 ∧
    (validate_file [] ⟨true, 52428800, ".pdf",
      some [0x25, 0x50, 0x44, 0x46, 0x31, 0x2e, 0x34, 0x0a], "h1"⟩).errors = [] ∧
    (validate_file [] ⟨true, 52428800, ".pdf",
      some [0x25, 0x50, 0x44, 0x46, 0x31, 0x2e, 0x34, 0x0a], "h1"⟩).valid = true := by
  exact ⟨by decide, by decide, by decide⟩

/-- C6: a file passing every check whose hash is already registered is still
valid, with the duplicate reported as a warning; and in general the verdict is
exactly "the error list is empty" — warnings never affect it. -/
theorem C6_duplicate_only_warns :
    (∀ reg (f : FileState), f.present = true →
      1024 ≤ f.size → f.size ≤ 52428800 →
      strToLower f.suffix = ".pdf" →
      (∃ hd, f.header = some hd ∧ prefixAt pdfMagic hd = true) →
      f.file_hash ≠ "" → (lookupKey reg f.file_hash).isSome = true →
      (validate_file reg f).valid = true ∧
      "File appears to be a duplicate" ∈ (validate_file reg f).warnings) ∧
    (∀ reg f, (validate_file reg f).valid =
      (validate_file reg f).errors.isEmpty) := by
  constructor
  · intro reg f hp hlo hhi hsuf hhead hne hdup
    obtain ⟨hd, hh, hm⟩ := hhead
    have hsize : sizeErrors f.size = [] := by
      unfold sizeErrors
      split_ifs with h1 h2
      · exact absurd h1 (by omega)
      · exact absurd h2 (by omega)
      · rfl
    have hext : extensionErrors f.suffix = [] := by
      simp [extensionErrors, hsuf]
    have hhd : headerErrors f.header = [] := by
      rw [hh]; simp [headerErrors, hm]
    have hdupb : is_duplicate_file reg f = true := by
      simp [is_duplicate_file, hne, hdup]
    constructor
    · simp [validate_file, hp, hsize, hext, hhd]
    · simp [validate_file, hp, hdupb]
  · intro reg f
    by_cases hp : f.present = true
    · simp [validate_file, hp]
    · have hp' : f.present = false := by
        cases hpp : f.present
        · rfl
        · exact absurd hpp hp
      simp [validate_file, hp']

/-- Witness for C6: a well-formed 2 KB PDF whose hash is in the registry. -/
theorem C6_duplicate_only_warns_witness :
    (validate_file [("aabb", "earlier.pdf")]
      ⟨true, 2048, ".pdf", some [0x25, 0x50, 0x44, 0x46, 0, 0, 0, 0],
        "aabb"⟩).valid = true ∧
    "File appears to be a duplicate" ∈
      (validate_file [("aabb", "earlier.pdf")]
        ⟨true, 2048, ".pdf", some [0x25, 0x50, 0x44, 0x46, 0, 0, 0, 0],
          "aabb"⟩).warnings :=
  C6_duplicate_only_warns.1 [("aabb", "earlier.pdf")]
    ⟨true, 2048, ".pdf", some [0x25, 0x50, 0x44, 0x46, 0, 0, 0, 0], "aabb"⟩
    rfl (by decide) (by decide) (by decide)
    ⟨[0x25, 0x50, 0x44, 0x46, 0, 0, 0, 0], rfl, by decide⟩ (by decide) (by decide)

/-- Writing the same key/value twice is the same as writing it once. -/
theorem setKey_setKey (m : List (String × String)) (k v : String) :
    setKey (setKey m k v) k v = setKey m k v := by
  induction m with
  | nil => simp [setKey]
  | cons p t ih =>
    obtain ⟨k', v'⟩ := p
    by_cases h : k' = k
    · simp [setKey, h]
    · simp [setKey, h, ih]

/-- After a write, the key reads back the written value. -/
theorem lookup_setKey (m : List (String × String)) (k v : String) :
    lookupKey (setKey m k v) k = some v := by
  induction m with
  | nil => simp [setKey, lookupKey]
  | cons p t ih =>
    obtain ⟨k', v'⟩ := p
    by_cases h : k' = k
    · simp [setKey, h, lookupKey]
    · simp [setKey, h, lookupKey, ih]

/-- The keys after a write are the old keys plus possibly the written key. -/
theorem mem_keys_setKey {m : List (String × String)} {k v x : String}
    (h : x ∈ (setKey m k v).map Prod.fst) :
    x ∈ m.map Prod.fst ∨ x = k := by
  induction m with
  | nil =>
    simp only [setKey, List.map_cons, List.map_nil, List.mem_singleton] at h
    exact Or.inr h
  | cons p t ih =>
    obtain ⟨k', v'⟩ := p
    by_cases hk : k' = k
    · rw [show setKey ((k', v') :: t) k v = (k, v) :: t from by
        simp [setKey, hk]] at h
      simp only [List.map_cons, List.mem_cons] at h
      rcases h with h | h
      · exact Or.inr h
      · exact Or.inl (List.mem_cons.mpr (Or.inr h))
    · rw [show setKey ((k', v') :: t) k v = (k', v') :: setKey t k v from by
        simp [setKey, hk]] at h
      simp only [List.map_cons, List.mem_cons] at h
      rcases h with h | h
      · exact Or.inl (List.mem_cons.mpr (Or.inl h))
      · rcases ih h with h' | h'
        · exact Or.inl (List.mem_cons.mpr (Or.inr h'))
        · exact Or.inr h'

/-- A dict write keeps the keys duplicate-free. -/
theorem keys_nodup_setKey (m : List (String × String)) (k v : String)
    (h : (m.map Prod.fst).Nodup) : ((setKey m k v).map Prod.fst).Nodup := by
  induction m with
  | nil => simp [setKey]
  | cons p t ih =>
    obtain ⟨k', v'⟩ := p
    simp only [List.map_cons, List.nodup_cons] at h
    by_cases hk : k' = k
    · rw [show setKey ((k', v') :: t) k v = (k, v) :: t from by simp [setKey, hk]]
      simp only [List.map_cons, List.nodup_cons]
      exact ⟨hk ▸ h.1, h.2⟩
    · rw [show setKey ((k', v') :: t) k v = (k', v') :: setKey t k v from by
        simp [setKey, hk]]
      simp only [List.map_cons, List.nodup_cons]
      refine ⟨?_, ih h.2⟩
      intro hmem
      rcases mem_keys_setKey hmem with h' | h'
      · exact h.1 h'
      · exact hk h'

/-- A key absent from the registry has zero entries. -/
theorem countKey_eq_zero {m : List (String × String)} {k : String}
    (h : k ∉ m.map Prod.fst) : countKey m k = 0 := by
  induction m with
  | nil => rfl
  | cons p t ih =>
    obtain ⟨k', v'⟩ := p
    simp only [List.map_cons, List.mem_cons, not_or] at h
    have hne : ¬ (k' = k) := fun hh => h.1 hh.symm
    simpa [countKey, hne] using ih h.2

/-- On a duplicate-free registry, a write leaves exactly one entry for the
written key. -/
theorem countKey_setKey (m : List (String × String)) (k v : String)
    (h : (m.map Prod.fst).Nodup) : countKey (setKey m k v) k = 1 := by
  induction m with
  | nil => simp [setKey, countKey]
  | cons p t ih =>
    obtain ⟨k', v'⟩ := p
    simp only [List.map_cons, List.nodup_cons] at h
    by_cases hk : k' = k
    · have : countKey t k = 0 := countKey_eq_zero (hk ▸ h.1)
      simp [setKey, hk, countKey] at this ⊢
      exact this
    · simp [setKey, hk, countKey] at ih ⊢
      exact ih h.2

/-- C8: `record_processed_file` is idempotent on the hash registry; two calls
with the same (non-empty) hash leave exactly one entry for it when the
registry's keys are duplicate-free, as a JSON-loaded dict's always are; and
the entry maps the hash to the later call's filename. -/
theorem C8_record_registry :
    (∀ reg h n, record_processed_file (record_processed_file reg h n) h n =
        record_processed_file reg h n) ∧
    (∀ reg h n, h ≠ "" → (reg.map Prod.fst).Nodup →
        countKey (record_processed_file (record_processed_file reg h n) h n) h
          = 1) ∧
    (∀ reg h n₁ n₂, h ≠ "" →
        lookupKey (record_processed_file (record_processed_file reg h n₁) h n₂)
          h = some n₂) := by
  refine ⟨?_, ?_, ?_⟩
  · intro reg h n
    by_cases hh : h = "" <;> simp [record_processed_file, hh, setKey_setKey]
  · intro reg h n hne hnd
    simp only [record_processed_file, hne, if_neg hne]
    exact countKey_setKey _ _ _ (keys_nodup_setKey _ _ _ hnd)
  · intro reg h n₁ n₂ hne
    simp [record_processed_file, hne, lookup_setKey]

/-- Witness for C8 on a one-entry registry. -/
theorem C8_record_registry_witness :
    countKey (record_processed_file (record_processed_file
      [("aa11", "old.pdf")] "ff22" "r.pdf") "ff22" "r.pdf") "ff22" = 1 :=
  C8_record_registry.2.1 [("aa11", "old.pdf")] "ff22" "r.pdf"
    (by decide) (by decide)

/-- The max component of the inner loop ignores the running total: it is a
`max`-fold over the weights the finding matches. -/
theorem severityStep_foldl_snd (finding : String) :
    ∀ (ws : List (String × ℚ)) (acc : ℚ × ℚ),
      (ws.foldl (severityStep finding) acc).2 =
        ((ws.filter fun cw => strContains (strToLower finding) cw.1).map
          Prod.snd).foldl max acc.2 := by
  intro ws
  induction ws with
  | nil => intro acc; rfl
  | cons cw t ih =>
    intro acc
    rw [List.foldl_cons, List.filter_cons]
    by_cases hp : strContains (strToLower finding) cw.1 = true
    · simp [severityStep, hp, ih]
    · have hp' : strContains (strToLower finding) cw.1 = false := by
        cases hc : strContains (strToLower finding) cw.1
        · rfl
        · exact absurd hc hp
      simp [severityStep, hp', ih]

/-- The max component of the double loop is a `max`-fold over all matched
weights. -/
theorem severity_foldl_snd :
    ∀ (fs : List String) (acc : ℚ × ℚ),
      (fs.foldl (fun acc finding =>
          severity_weights.foldl (severityStep finding) acc) acc).2 =
        (matchedWeights fs).foldl max acc.2 := by
  intro fs
  induction fs with
  | nil => intro acc; rfl
  | cons f t ih =>
    intro acc
    simp only [List.foldl_cons, ih, severityStep_foldl_snd, matchedWeights,
      List.map_cons, List.flatten_cons, List.foldl_append]

/-- Every weight in the table is at most `10`. -/
theorem severity_weights_le_ten : ∀ cw ∈ severity_weights, cw.2 ≤ 10 := by
  intro cw hcw
  fin_cases hcw <;> norm_num

/-- Every matched weight is at most `10`. -/
theorem matchedWeights_le_ten (fs : List String) :
    ∀ x ∈ matchedWeights fs, x ≤ 10 := by
  intro x hx
  simp only [matchedWeights, List.mem_flatten, List.mem_map] at hx
  obtain ⟨l, ⟨f, _, rfl⟩, hxl⟩ := hx
  obtain ⟨cw, hcw, rfl⟩ := List.mem_map.mp hxl
  exact severity_weights_le_ten cw (List.mem_filter.mp hcw).1

/-- A `max`-fold of entries at most `10` from a start at most `10` stays at
most `10`. -/
theorem foldl_max_le_ten :
    ∀ (l : List ℚ) (a : ℚ), (∀ x ∈ l, x ≤ 10) → a ≤ 10 →
      l.foldl max a ≤ 10 := by
  intro l
  induction l with
  | nil => intro a _ ha; exact ha
  | cons x t ih =>
    intro a hl ha
    exact ih (max a x) (fun y hy => hl y (List.mem_cons.mpr (Or.inr hy)))
      (max_le ha (hl x (List.mem_cons.mpr (Or.inl rfl))))

/-- C9: the severity score is the **maximum** of the fixed per-condition
weights over the matched conditions — `0` when nothing matches — and on two
RED findings with weights `9` and `8` it is `9`, not their sum `17`. -/
theorem C9_severity_is_max :
    (∀ fs, _calculate_severity_score fs = spec_severity_score fs) ∧
    _calculate_severity_score [] = 0 ∧
    _calculate_severity_score ["pulmonary embolism", "hemorrhage"] = 9 ∧
    (9 : ℚ) ≠ 9 + 8 := by
  have key : ∀ fs, _calculate_severity_score fs = spec_severity_score fs := by
    intro fs
    cases fs with
    | nil => rfl
    | cons f t =>
      show min ((f :: t).foldl (fun acc finding =>
          severity_weights.foldl (severityStep finding) acc) (0, 0)).2 10 = _
      rw [severity_foldl_snd]
      exact min_eq_left (foldl_max_le_ten _ _
        (matchedWeights_le_ten (f :: t)) (by norm_num))
  refine ⟨key, rfl, ?_, by norm_num⟩
  rw [key]
  decide

/-- `charVal` undoes the digit-character encoding on decimal digits. -/
theorem charVal_ofNat : ∀ d : Nat, d < 10 → charVal (Char.ofNat (48 + d)) = d := by
  intro d hd
  interval_cases d <;> rfl

/-- Decoding inverts `natRepr`. -/
theorem decode_natRepr (n : Nat) :
    Nat.ofDigits 10 (((natRepr n).data.map charVal).reverse) = n := by
  by_cases h0 : n = 0
  · subst h0; rfl
  · rw [natRepr, if_neg h0]
    show Nat.ofDigits 10
      ((((Nat.digits 10 n).reverse.map fun d => Char.ofNat (48 + d)).map
        charVal).reverse) = n
    rw [List.map_map]
    have hmap : (Nat.digits 10 n).reverse.map
        (charVal ∘ fun d => Char.ofNat (48 + d)) = (Nat.digits 10 n).reverse := by
      have : ∀ d ∈ (Nat.digits 10 n).reverse,
          (charVal ∘ fun d => Char.ofNat (48 + d)) d = d := by
        intro d hd
        exact charVal_ofNat d
          (Nat.digits_lt_base (by norm_num) (List.mem_reverse.mp hd))
      calc (Nat.digits 10 n).reverse.map (charVal ∘ fun d => Char.ofNat (48 + d))
          = (Nat.digits 10 n).reverse.map id := List.map_congr_left this
        _ = (Nat.digits 10 n).reverse := List.map_id _
    rw [hmap, List.reverse_reverse, Nat.ofDigits_digits]

/-- `natRepr` is injective — distinct counters render to distinct strings. -/
theorem natRepr_injective : Function.Injective natRepr := by
  intro a b h
  have hd := congrArg (fun s => Nat.ofDigits 10 ((s.data.map charVal).reverse)) h
  simp only at hd
  rw [decode_natRepr, decode_natRepr] at hd
  exact hd

/-- Distinct counters give distinct candidate names. -/
theorem candName_inj {stem sfx : String} {k₁ k₂ : Nat}
    (h : candName stem sfx k₁ = candName stem sfx k₂) : k₁ = k₂ := by
  have hd := congrArg String.data h
  simp only [candName, String.data_append, List.append_assoc] at hd
  have h1 := List.append_cancel_left hd
  have h2 := List.append_cancel_left h1
  have h3 := List.append_cancel_right h2
  exact natRepr_injective (congrArg String.mk h3)

/-- The loop always returns some candidate at or after its start counter. -/
theorem resolveLoop_shape (used : List String) (stem sfx : String) :
    ∀ (fuel counter : Nat), ∃ k, counter ≤ k ∧
      resolveLoop used stem sfx counter fuel = candName stem sfx k := by
  intro fuel
  induction fuel with
  | zero => intro counter; exact ⟨counter, le_refl _, rfl⟩
  | succ fuel ih =>
    intro counter
    by_cases hc : candName stem sfx counter ∈ used
    · obtain ⟨k, hk, he⟩ := ih (counter + 1)
      exact ⟨k, by omega, by rw [resolveLoop, if_pos hc]; exact he⟩
    · exact ⟨counter, le_refl _, by rw [resolveLoop, if_neg hc]⟩

/-- If some candidate within the fuel budget is free, the loop returns a name
not already present. -/
theorem resolveLoop_not_mem (used : List String) (stem sfx : String) :
    ∀ (fuel counter : Nat),
      (∃ j, j < fuel ∧ candName stem sfx (counter + j) ∉ used) →
      resolveLoop used stem sfx counter fuel ∉ used := by
  intro fuel
  induction fuel with
  | zero =>
    intro counter h
    obtain ⟨j, hj, _⟩ := h
    omega
  | succ fuel ih =>
    intro counter h
    by_cases hc : candName stem sfx counter ∈ used
    · rw [resolveLoop, if_pos hc]
      apply ih (counter + 1)
      obtain ⟨j, hj, hfree⟩ := h
      have hjne : j ≠ 0 := by
        intro hj0
        subst hj0
        simp only [Nat.add_zero] at hfree
        exact hfree hc
      refine ⟨j - 1, by omega, ?_⟩
      have harith : counter + 1 + (j - 1) = counter + j := by omega
      rw [harith]
      exact hfree
    · rw [resolveLoop, if_neg hc]
      exact hc

/-- Pigeonhole: among `|used| + 1` consecutive candidates at least one name is
not in `used`. -/
theorem exists_fresh_candidate (used : List String) (stem sfx : String)
    (counter : Nat) :
    ∃ j, j < used.length + 1 ∧ candName stem sfx (counter + j) ∉ used := by
  by_contra hall
  push_neg at hall
  have hinj : Set.InjOn (fun j => candName stem sfx (counter + j))
      (Finset.range (used.length + 1)) := by
    intro a _ b _ hab
    have := candName_inj hab
    omega
  have hsub : ∀ j ∈ Finset.range (used.length + 1),
      candName stem sfx (counter + j) ∈ used.toFinset := by
    intro j hj
    rw [List.mem_toFinset]
    exact hall j (Finset.mem_range.mp hj)
  have hcard := Finset.card_le_card_of_injOn _ hsub hinj
  rw [Finset.card_range] at hcard
  have hle := List.toFinset_card_le (l := used)
  omega

/-- The resolved name is never one already present: nothing is overwritten. -/
theorem resolve_collision_not_mem (used : List String) (stem sfx : String) :
    resolve_collision used stem sfx ∉ used := by
  rw [resolve_collision]
  split_ifs with h
  · apply resolveLoop_not_mem
    exact exists_fresh_candidate used stem sfx 1
  · exact h

/-- Looking a key up past a prefix that does not contain it. -/
theorem lookupKey_append_of_not_mem {α : Type} :
    ∀ (l₁ l₂ : List (String × α)) (k : String), k ∉ l₁.map Prod.fst →
      lookupKey (l₁ ++ l₂) k = lookupKey l₂ k := by
  intro l₁
  induction l₁ with
  | nil => intro l₂ k _; rfl
  | cons p t ih =>
    intro l₂ k hk
    obtain ⟨k', v'⟩ := p
    simp only [List.map_cons, List.mem_cons, not_or] at hk
    have : ¬ (k' = k) := fun hh => hk.1 hh.symm
    simp only [List.cons_append, lookupKey, if_neg this]
    exact ih l₂ k hk.2

/-- C7: moving two files that bear the same `stem ++ sfx` name successively
into a directory not already holding that name gives the first the plain name
and the second a `stem_k.sfx` name with a numeric `k ≥ 1`; the names differ,
both entries are present afterwards, and the first file's content is still
read back under its name — nothing is overwritten. -/
theorem C7_collision_safe_move :
    ∀ (dir : List (String × String)) (stem sfx c₁ c₂ : String),
      stem ++ sfx ∉ dir.map Prod.fst →
      (move_file dir stem sfx c₁).2 = stem ++ sfx ∧
      (∃ k, 1 ≤ k ∧ (move_file (move_file dir stem sfx c₁).1 stem sfx c₂).2
        = stem ++ "_" ++ natRepr k ++ sfx) ∧
      (move_file (move_file dir stem sfx c₁).1 stem sfx c₂).2 ≠ stem ++ sfx ∧
      lookupKey (move_file (move_file dir stem sfx c₁).1 stem sfx c₂).1
        (stem ++ sfx) = some c₁ ∧
      lookupKey (move_file (move_file dir stem sfx c₁).1 stem sfx c₂).1
        ((move_file (move_file dir stem sfx c₁).1 stem sfx c₂).2) = some c₂ := by
  intro dir stem sfx c₁ c₂ hfree
  have hn₁ : (move_file dir stem sfx c₁).2 = stem ++ sfx := by
    simp only [move_file, resolve_collision, if_neg hfree]
  have hdir₁ : (move_file dir stem sfx c₁).1 = dir ++ [(stem ++ sfx, c₁)] := by
    simp only [move_file, resolve_collision, if_neg hfree]
  set used₂ := (dir ++ [(stem ++ sfx, c₁)]).map Prod.fst with hused₂
  have hmem₂ : stem ++ sfx ∈ used₂ := by
    rw [hused₂]
    simp
  have hn₂def : (move_file (move_file dir stem sfx c₁).1 stem sfx c₂).2 =
      resolve_collision used₂ stem sfx := by
    rw [hdir₁]
    rfl
  have hn₂fresh : resolve_collision used₂ stem sfx ∉ used₂ :=
    resolve_collision_not_mem used₂ stem sfx
  have hshape : ∃ k, 1 ≤ k ∧ resolve_collision used₂ stem sfx
      = candName stem sfx k := by
    rw [resolve_collision, if_pos hmem₂]
    exact resolveLoop_shape used₂ stem sfx (used₂.length + 1) 1
  have hdir₂ : (move_file (move_file dir stem sfx c₁).1 stem sfx c₂).1 =
      dir ++ [(stem ++ sfx, c₁)] ++ [(resolve_collision used₂ stem sfx, c₂)] := by
    rw [hdir₁]
    rfl
  refine ⟨hn₁, ?_, ?_, ?_, ?_⟩
  · rw [hn₂def]
    exact hshape
  · rw [hn₂def]
    intro hcontra
    exact hn₂fresh (hcontra ▸ hmem₂)
  · rw [hdir₂, List.append_assoc]
    rw [lookupKey_append_of_not_mem dir _ _ hfree]
    simp [lookupKey]
  · have hsubset : ∀ x ∈ dir.map Prod.fst, x ∈ used₂ := by
      intro x hx
      rw [hused₂]
      simp only [List.map_append]
      exact List.mem_append.mpr (Or.inl hx)
    rw [hdir₂, hn₂def, List.append_assoc]
    rw [lookupKey_append_of_not_mem dir _ _ ?hh]
    case hh =>
      intro hmm
      exact hn₂fresh (hsubset _ hmm)
    simp only [List.cons_append, List.nil_append, lookupKey]
    have hne : ¬ (stem ++ sfx = resolve_collision used₂ stem sfx) := by
      intro hcontra
      exact hn₂fresh (hcontra ▸ hmem₂)
    rw [if_neg hne]
    simp [lookupKey]

/-- Witness for C7: two files both named "report.pdf" moved into an empty
directory. -/
theorem C7_collision_safe_move_witness :
    (move_file [] "report" ".pdf" "CONTENT-A").2 = "report" ++ ".pdf" :=
  (C7_collision_safe_move [] "report" ".pdf" "CONTENT-A" "CONTENT-B"
    (by simp)).1
